import Mathlib

/-!
Verification of the voice-interaction pipeline (`main.py`).

The development shallowly embeds the pieces of the program that the
specification describes:

* `remove_repetitive_sentences` — the sentence deduplicator, modelled over
  `List Char` with Python's `str.rfind`/slice/`split`/`strip`/`join`
  semantics spelled out as executable functions;
* `handle_errors` — the decorator that logs and re-raises stage errors,
  modelled over a log-state/exception monad `PyM`;
* `validate_and_reformat_audio_file` — the audio-format validator, modelled
  with oracle outcomes for the external re-encode and `wave.open` calls and
  an explicit list of file-system actions performed;
* `process_audio_file` / `run` — the pipeline, modelled as straight-line
  code over stage oracles that also produces the ordered trace of events
  (stage invocations, prints, log lines, file deletions).
-/

/-! ## Text deduplication (`remove_repetitive_sentences`, main.py lines 265-306) -/

/-- Python `str.strip()` whitespace predicate (ASCII whitespace characters). -/
def isPySpace (c : Char) : Bool :=
  c == ' ' || c == '\t' || c == '\n' || c == '\r' || c == '\u000B' || c == '\u000C'

/-- Python `s.strip()`: drop leading and trailing whitespace. -/
def pyStrip (s : List Char) : List Char :=
  ((s.dropWhile isPySpace).reverse.dropWhile isPySpace).reverse

/-- Python `s.split(".")` for the one-character separator `'.'`:
splitting `""` gives `[""]`, and every separator produces a boundary,
so `"a.b."` gives `["a", "b", ""]`. -/
def splitOnDot : List Char → List (List Char)
  | [] => [[]]
  | c :: rest =>
    if c = '.' then [] :: splitOnDot rest
    else
      match splitOnDot rest with
      | [] => [[c]]
      | p :: ps => (c :: p) :: ps

/-- Python `".".join(l)`. -/
def joinDot : List (List Char) → List Char
  | [] => []
  | [s] => s
  | s :: rest => s ++ '.' :: joinDot rest

/-- `text[: text.rfind(".") + 1]` when `'.' ∈ text`: the prefix of `text`
up to and including the last `'.'`. -/
def beforeLastDot (s : List Char) : List Char :=
  (s.reverse.dropWhile (fun c => c != '.')).reverse

/-- The `for sentence in sentences` loop of `remove_repetitive_sentences`:
strip each candidate, keep it when it is non-empty and not seen before,
recording kept sentences in the `seen` accumulator (the Python set). -/
def dedupLoop : List (List Char) → List (List Char) → List (List Char)
  | [], _ => []
  | sentence :: rest, seen =>
    let t := pyStrip sentence
    if t ≠ [] ∧ t ∉ seen then
      t :: dedupLoop rest (t :: seen)
    else
      dedupLoop rest seen

/-- The list `non_repetitive_sentences` computed by
`remove_repetitive_sentences` on `text` (after the last-period cut). -/
def keptSentences (text : List Char) : List (List Char) :=
  dedupLoop (splitOnDot (beforeLastDot text)) []

/-- `remove_repetitive_sentences` (main.py lines 265-306): if the text has
no `'.'` return it unchanged; otherwise cut at the last `'.'`, split on
`'.'`, keep the first occurrence of each stripped non-empty sentence,
rejoin with `"."` and strip the result. -/
def remove_repetitive_sentences (text : List Char) : List Char :=
  if '.' ∈ text then pyStrip (joinDot (keptSentences text)) else text

theorem pyStrip_length_le (s : List Char) : (pyStrip s).length ≤ s.length := by
  unfold pyStrip
  rw [List.length_reverse]
  calc ((s.dropWhile isPySpace).reverse.dropWhile isPySpace).length
      ≤ (s.dropWhile isPySpace).reverse.length := (List.dropWhile_sublist _).length_le
    _ = (s.dropWhile isPySpace).length := List.length_reverse _
    _ ≤ s.length := (List.dropWhile_sublist _).length_le

theorem splitOnDot_ne_nil (s : List Char) : splitOnDot s ≠ [] := by
  cases s with
  | nil => simp [splitOnDot]
  | cons c rest =>
    unfold splitOnDot
    split
    · simp
    · cases h : splitOnDot rest <;> simp

theorem joinDot_cons_cons (a b : List Char) (l : List (List Char)) :
    joinDot (a :: b :: l) = a ++ '.' :: joinDot (b :: l) := rfl

theorem joinDot_splitOnDot (s : List Char) : joinDot (splitOnDot s) = s := by
  induction s with
  | nil => rfl
  | cons c rest ih =>
    unfold splitOnDot
    split
    · next hc =>
      subst hc
      cases h : splitOnDot rest with
      | nil => exact absurd h (splitOnDot_ne_nil rest)
      | cons p ps =>
        rw [h] at ih
        rw [joinDot_cons_cons]
        simpa using ih
    · next hc =>
      cases h : splitOnDot rest with
      | nil => exact absurd h (splitOnDot_ne_nil rest)
      | cons p ps =>
        rw [h] at ih
        cases ps with
        | nil => simpa [joinDot] using ih
        | cons q qs =>
          rw [joinDot_cons_cons] at ih ⊢
          rw [List.cons_append, ih]

theorem dedupLoop_sublist (l seen : List (List Char)) :
    List.Sublist (dedupLoop l seen) (l.map pyStrip) := by
  induction l generalizing seen with
  | nil => simp [dedupLoop]
  | cons sentence rest ih =>
    rw [dedupLoop, List.map_cons]
    split
    · exact (ih _).cons₂ _
    · exact (ih _).cons _

theorem dedupLoop_nodup (l seen : List (List Char)) :
    (∀ t ∈ dedupLoop l seen, t ∉ seen) ∧ (dedupLoop l seen).Nodup := by
  induction l generalizing seen with
  | nil => simp [dedupLoop]
  | cons sentence rest ih =>
    rw [dedupLoop]
    split
    · next hcond =>
      obtain ⟨hne, hnotseen⟩ := hcond
      obtain ⟨ihmem, ihnodup⟩ := ih (pyStrip sentence :: seen)
      refine ⟨?_, ?_⟩
      · intro t ht
        rcases List.mem_cons.mp ht with rfl | ht
        · exact hnotseen
        · exact fun hs => ihmem t ht (List.mem_cons_of_mem _ hs)
      · exact List.nodup_cons.mpr
          ⟨fun hmem => ihmem _ hmem (List.mem_cons_self _ _), ihnodup⟩
    · exact ih seen

theorem length_joinDot_le_cons (a : List Char) (l : List (List Char)) :
    (joinDot l).length ≤ (joinDot (a :: l)).length := by
  cases l with
  | nil => simp [joinDot]
  | cons b bs =>
    rw [joinDot_cons_cons]
    simp only [List.length_append, List.length_cons]
    omega

theorem length_joinDot_le_of_sublist {l₁ l₂ : List (List Char)}
    (h : List.Sublist l₁ l₂) :
    (joinDot l₁).length ≤ (joinDot l₂).length := by
  induction h with
  | slnil => exact le_refl _
  | cons a h ih => exact ih.trans (length_joinDot_le_cons a _)
  | cons₂ a h ih =>
    rename_i l₁ l₂
    cases l₁ with
    | nil =>
      cases l₂ with
      | nil => exact le_refl _
      | cons c cs =>
        rw [joinDot_cons_cons]
        simp [joinDot]
    | cons b bs =>
      cases l₂ with
      | nil => exact absurd h (by simp)
      | cons c cs =>
        rw [joinDot_cons_cons, joinDot_cons_cons]
        simp only [List.length_append, List.length_cons]
        omega

theorem length_joinDot_map_pyStrip_le (l : List (List Char)) :
    (joinDot (l.map pyStrip)).length ≤ (joinDot l).length := by
  induction l with
  | nil => exact le_refl _
  | cons a rest ih =>
    cases rest with
    | nil => simpa [joinDot] using pyStrip_length_le a
    | cons b bs =>
      rw [List.map_cons, joinDot_cons_cons]
      rw [show (b :: bs).map pyStrip = pyStrip b :: bs.map pyStrip from rfl] at ih ⊢
      rw [joinDot_cons_cons]
      simp only [List.length_append, List.length_cons]
      have hs := pyStrip_length_le a
      omega

theorem beforeLastDot_length_le (s : List Char) :
    (beforeLastDot s).length ≤ s.length := by
  unfold beforeLastDot
  rw [List.length_reverse]
  calc (s.reverse.dropWhile (fun c => c != '.')).length
      ≤ s.reverse.length := (List.dropWhile_sublist _).length_le
    _ = s.length := List.length_reverse _

theorem rrs_no_dot_eq (s : List Char) (h : '.' ∉ s) :
    remove_repetitive_sentences s = s := by
  unfold remove_repetitive_sentences
  exact if_neg h

/-- C1: on every input containing a `'.'` terminator, the kept sentences of
`remove_repetitive_sentences` are pairwise distinct (no two kept sentences
have equal trimmed text), they form a subsequence of the trimmed split of
the input (first-occurrence order is preserved), and the output is no
longer than the input. -/
theorem dedup_guarantees (text : List Char) (h : '.' ∈ text) :
    (keptSentences text).Nodup ∧
    List.Sublist (keptSentences text) ((splitOnDot (beforeLastDot text)).map pyStrip) ∧
    (remove_repetitive_sentences text).length ≤ text.length := by
  refine ⟨(dedupLoop_nodup _ []).2, dedupLoop_sublist _ [], ?_⟩
  unfold remove_repetitive_sentences
  rw [if_pos h]
  calc (pyStrip (joinDot (keptSentences text))).length
      ≤ (joinDot (keptSentences text)).length := pyStrip_length_le _
    _ ≤ (joinDot ((splitOnDot (beforeLastDot text)).map pyStrip)).length :=
        length_joinDot_le_of_sublist (dedupLoop_sublist _ [])
    _ ≤ (joinDot (splitOnDot (beforeLastDot text))).length :=
        length_joinDot_map_pyStrip_le _
    _ = (beforeLastDot text).length := by rw [joinDot_splitOnDot]
    _ ≤ text.length := beforeLastDot_length_le text

theorem dedup_guarantees_witness :
    ('.' ∈ "Go on. Go on. Stop.".toList) ∧
    (keptSentences "Go on. Go on. Stop.".toList).Nodup ∧
    List.Sublist (keptSentences "Go on. Go on. Stop.".toList)
      ((splitOnDot (beforeLastDot "Go on. Go on. Stop.".toList)).map pyStrip) ∧
    (remove_repetitive_sentences "Go on. Go on. Stop.".toList).length ≤
      "Go on. Go on. Stop.".toList.length :=
  ⟨by decide, dedup_guarantees "Go on. Go on. Stop.".toList (by decide)⟩

/-- C3 counterexample: the deduplicator is not idempotent.  On `"a. b."`
one application yields `"a.b"` (no trailing terminator is re-appended), and
a second application then cuts at the last `'.'` and drops `"b"`, yielding
`"a"`. -/
theorem dedup_not_idempotent_cex :
    remove_repetitive_sentences (remove_repetitive_sentences "a. b.".toList) ≠
      remove_repetitive_sentences "a. b.".toList := by decide

/-- C3 (amended): the deduplicator is idempotent on every input whose first
application produces a terminator-free result — in particular on inputs
without `'.'` (returned unchanged) and on inputs where at most one sentence
is kept.  When the first result still contains `'.'` (two or more kept
sentences), a second application drops the final sentence, so idempotence
fails in general. -/
theorem dedup_idempotent_of_dotfree_output (text : List Char)
    (h : '.' ∉ remove_repetitive_sentences text) :
    remove_repetitive_sentences (remove_repetitive_sentences text) =
      remove_repetitive_sentences text :=
  rrs_no_dot_eq _ h

theorem dedup_idempotent_of_dotfree_output_witness :
    ('.' ∉ remove_repetitive_sentences "a. a.".toList) ∧
    remove_repetitive_sentences (remove_repetitive_sentences "a. a.".toList) =
      remove_repetitive_sentences "a. a.".toList :=
  ⟨by decide, dedup_idempotent_of_dotfree_output "a. a.".toList (by decide)⟩

/-- C4 counterexample: on `"Hi. Hi. How are you."` the deduplicator does
not return the spec's `"Hi. How are you."` — the join uses a bare `"."`
with no following space and no trailing terminator. -/
theorem dedup_example_cex :
    remove_repetitive_sentences "Hi. Hi. How are you.".toList ≠
      "Hi. How are you.".toList := by decide

/-- C4 (amended): on `"Hi. Hi. How are you."` the deduplicator returns
exactly `"Hi.How are you"` — the duplicate `"Hi"` is dropped, the kept
sentences are rejoined with `"."` without a following space, and no
trailing terminator is appended. -/
theorem dedup_example_actual :
    remove_repetitive_sentences "Hi. Hi. How are you.".toList =
      "Hi.How are you".toList := by decide

/-! ## Error wrapping (`handle_errors`, main.py lines 132-154)

Python effects are modelled by `PyM`: a computation takes the current log
(the growing list of records emitted through the module logger) and either
returns a value or raises an exception, in both cases yielding the updated
log.  `pyTryCatchAll` is `try ... except Exception as e: ...`. -/

/-- A Python exception: its class name and its message (`str(e)`). -/
structure Exn where
  name : String
  msg : String
deriving DecidableEq

/-- Severity of a log record. -/
inductive LogLevel where
  | info
  | warning
  | error
deriving DecidableEq

/-- One record emitted through the module logger. -/
structure LogEntry where
  level : LogLevel
  message : String
deriving DecidableEq

/-- A Python computation: reads the current log, returns a value or raises,
and yields the updated log. -/
def PyM (α : Type) := List LogEntry → Except Exn α × List LogEntry

def pyPure {α : Type} (v : α) : PyM α := fun log => (.ok v, log)

/-- `raise e`. -/
def pyThrow {α : Type} (e : Exn) : PyM α := fun log => (.error e, log)

/-- `try: body except Exception as e: handler e`. -/
def pyTryCatchAll {α : Type} (body : PyM α) (handler : Exn → PyM α) : PyM α := fun log =>
  match body log with
  | (.ok v, log') => (.ok v, log')
  | (.error e, log') => handler e log'

def pyBind {α β : Type} (m : PyM α) (f : α → PyM β) : PyM β := fun log =>
  match m log with
  | (.ok v, log') => f v log'
  | (.error e, log') => (.error e, log')

/-- `logger.<level>(message)`: append one record to the log. -/
def logAt (lvl : LogLevel) (message : String) : PyM Unit := fun log =>
  (.ok (), log ++ [⟨lvl, message⟩])

/-- The `handle_errors` decorator (main.py lines 132-154): run the wrapped
function; on any exception `e`, log
`"An error occurred in {func.__name__}: {e}"` at error severity and
re-raise `e`. -/
def handle_errors {α β : Type} (funcName : String) (func : α → PyM β) : α → PyM β :=
  fun x =>
    pyTryCatchAll (func x) (fun e =>
      pyBind (logAt .error ("An error occurred in " ++ funcName ++ ": " ++ e.msg))
        (fun _ => pyThrow e))

/-- C2: for every wrapped stage and input, if the stage returns normally
the wrapper returns its value (and log) unchanged; if the stage raises,
the wrapper appends exactly one error-severity record naming the function
and the error message, and re-raises the very same exception. -/
theorem handle_errors_spec {α β : Type} (funcName : String) (func : α → PyM β)
    (x : α) (log : List LogEntry) :
    (∀ v log', func x log = (.ok v, log') →
      handle_errors funcName func x log = (.ok v, log')) ∧
    (∀ e log', func x log = (.error e, log') →
      handle_errors funcName func x log =
        (.error e, log' ++
          [⟨.error, "An error occurred in " ++ funcName ++ ": " ++ e.msg⟩])) := by
  constructor
  · intro v log' h
    simp [handle_errors, pyTryCatchAll, h]
  · intro e log' h
    simp [handle_errors, pyTryCatchAll, h, pyBind, logAt, pyThrow]

/-- A stage that always raises, used to exercise `handle_errors_spec`. -/
def boomStage : Nat → PyM Nat := fun _ => pyThrow ⟨"RuntimeError", "boom"⟩

theorem handle_errors_spec_witness :
    (boomStage 0 [] = (.error ⟨"RuntimeError", "boom"⟩, [])) ∧
    handle_errors "find_file" boomStage 0 [] =
      (.error ⟨"RuntimeError", "boom"⟩,
        [⟨.error, "An error occurred in find_file: boom"⟩]) :=
  ⟨rfl,
    (handle_errors_spec "find_file" boomStage 0 []).2
      ⟨"RuntimeError", "boom"⟩ [] rfl⟩

/-! ## Audio-format validation (`validate_and_reformat_audio_file`, main.py lines 368-391)

The two external calls — the in-place re-encode (`reformat_to_wav`, i.e.
`AudioSegment.from_mp3` + `export`) and the canonical open (`wave.open`) —
are oracles supplied by an `AudioEnv`.  The function also returns the list
of file-system actions it performed, so that frame conditions ("the file's
bytes are untouched") can be stated. -/

/-- Result of an external call: a value, or a raised exception. -/
inductive Outcome (α : Type) where
  | ok (v : α)
  | raises (e : Exn)
deriving DecidableEq

/-- File-system actions the validator can perform on the audio file. -/
inductive FsAction where
  | reencode
  | waveOpen
deriving DecidableEq

/-- Oracle behavior of the external audio libraries on the file at hand.
`reencodeBytes` is what the in-place re-encode does to the file's bytes. -/
structure AudioEnv where
  reformatOutcome : Outcome Unit
  waveOpenOutcome : Outcome Unit
  reencodeBytes : List Nat → List Nat

/-- The exception class caught by `except wave.Error`. -/
def waveErrorName : String := "wave.Error"

/-- Python `file.endswith(ext)`. -/
def pyEndsWith (file ext : List Char) : Bool := List.isSuffixOf ext file

/-- `validate_and_reformat_audio_file` (main.py lines 368-391): if the name
ends in `".wav"` or `".mp3"`, re-encode in place, then try to open as WAV;
a `wave.Error` is downgraded to `False` with a warning log, any other
exception propagates.  Otherwise return `False` with no action at all.
Returns (outcome, actions performed, log records emitted). -/
def validate_and_reformat_audio_file (env : AudioEnv) (audio_file : List Char) :
    Outcome Bool × List FsAction × List LogEntry :=
  if pyEndsWith audio_file ".wav".toList || pyEndsWith audio_file ".mp3".toList then
    match env.reformatOutcome with
    | .raises e => (.raises e, [.reencode], [])
    | .ok _ =>
      match env.waveOpenOutcome with
      | .ok _ => (.ok true, [.reencode, .waveOpen], [])
      | .raises e =>
        if e.name = waveErrorName then
          (.ok false, [.reencode, .waveOpen],
            [⟨.warning,
              "An error occurred while validating the file format by trying to open it with WAV: "
                ++ e.msg⟩])
        else
          (.raises e, [.reencode, .waveOpen], [])
  else
    (.ok false, [], [])

/-- Effect of one file-system action on the audio file's bytes: only the
re-encode rewrites them. -/
def applyFsAction (env : AudioEnv) : FsAction → List Nat → List Nat
  | .reencode => env.reencodeBytes
  | .waveOpen => fun b => b

/-- Effect of a sequence of file-system actions on the file's bytes. -/
def applyFsActions (env : AudioEnv) (acts : List FsAction) (b : List Nat) : List Nat :=
  acts.foldl (fun bytes a => applyFsAction env a bytes) b

theorem validator_no_match (env : AudioEnv) (file : List Char)
    (h1 : pyEndsWith file ".wav".toList = false)
    (h2 : pyEndsWith file ".mp3".toList = false) :
    validate_and_reformat_audio_file env file = (.ok false, [], []) := by
  unfold validate_and_reformat_audio_file
  rw [h1, h2]
  simp

theorem suffix_eq_of_length_eq {α : Type} {u v l : List α}
    (hu : u <:+ l) (hv : v <:+ l) (hlen : u.length = v.length) : u = v := by
  obtain ⟨t, ht⟩ := hu
  obtain ⟨s, hs⟩ := hv
  have hts : t ++ u = s ++ v := by rw [ht, hs]
  have hlts : t.length = s.length := by
    have hl := congrArg List.length hts
    simp only [List.length_append] at hl
    omega
  exact (List.append_inj hts hlts).2

/-- C5: on a `".wav"`/`".mp3"`-named file, when the re-encode succeeds but
the canonical WAV open raises `wave.Error` (corrupt audio data), the
validator returns `false` instead of raising. -/
theorem validator_downgrades_wave_error (env : AudioEnv) (file : List Char) (e : Exn)
    (hext : pyEndsWith file ".wav".toList = true ∨ pyEndsWith file ".mp3".toList = true)
    (hre : env.reformatOutcome = .ok ())
    (hwo : env.waveOpenOutcome = .raises e)
    (hname : e.name = waveErrorName) :
    (validate_and_reformat_audio_file env file).1 = .ok false := by
  unfold validate_and_reformat_audio_file
  rcases hext with h | h <;> rw [h] <;> simp [hre, hwo, hname]

/-- An oracle where the re-encode succeeds but the WAV open finds the data
corrupt. -/
def corruptAudioEnv : AudioEnv :=
  { reformatOutcome := .ok ()
    waveOpenOutcome := .raises ⟨"wave.Error", "file does not start with RIFF id"⟩
    reencodeBytes := fun b => b }

theorem validator_downgrades_wave_error_witness :
    (pyEndsWith "voice.wav".toList ".wav".toList = true ∨
      pyEndsWith "voice.wav".toList ".mp3".toList = true) ∧
    (validate_and_reformat_audio_file corruptAudioEnv "voice.wav".toList).1 = .ok false :=
  ⟨Or.inl (by decide),
    validator_downgrades_wave_error corruptAudioEnv "voice.wav".toList
      ⟨"wave.Error", "file does not start with RIFF id"⟩
      (Or.inl (by decide)) rfl rfl rfl⟩

/-- C8: on a path ending in neither `".wav"` nor `".mp3"`, the validator
returns `false` at once, performs no file-system action (in particular no
re-encode attempt), and the file's bytes are unchanged. -/
theorem validator_rejects_unsupported (env : AudioEnv) (file : List Char) (bytes : List Nat)
    (h1 : pyEndsWith file ".wav".toList = false)
    (h2 : pyEndsWith file ".mp3".toList = false) :
    validate_and_reformat_audio_file env file = (.ok false, [], []) ∧
    applyFsActions env (validate_and_reformat_audio_file env file).2.1 bytes = bytes := by
  have h := validator_no_match env file h1 h2
  refine ⟨h, ?_⟩
  rw [h]
  rfl

/-- An oracle whose re-encode would visibly clobber the file, to show the
validator never invokes it on rejected paths. -/
def idleAudioEnv : AudioEnv :=
  { reformatOutcome := .ok ()
    waveOpenOutcome := .ok ()
    reencodeBytes := fun _ => [] }

theorem validator_rejects_unsupported_witness :
    (pyEndsWith "notes.txt".toList ".wav".toList = false) ∧
    (pyEndsWith "notes.txt".toList ".mp3".toList = false) ∧
    validate_and_reformat_audio_file idleAudioEnv "notes.txt".toList = (.ok false, [], []) ∧
    applyFsActions idleAudioEnv
      (validate_and_reformat_audio_file idleAudioEnv "notes.txt".toList).2.1 [7, 7, 7] = [7, 7, 7] :=
  ⟨by decide, by decide,
    (validator_rejects_unsupported idleAudioEnv "notes.txt".toList [7, 7, 7]
      (by decide) (by decide)).1,
    (validator_rejects_unsupported idleAudioEnv "notes.txt".toList [7, 7, 7]
      (by decide) (by decide)).2⟩

/-- C10: the extension check is case-sensitive.  Any path ending in a
length-4 case variant of `".wav"`/`".mp3"` that is not the lowercase
extension itself (e.g. `".WAV"`, `".Mp3"`) is rejected exactly like any
other unsupported extension: `false`, no re-encode, bytes untouched. -/
theorem validator_extension_case_sensitive (env : AudioEnv) (file v : List Char) (bytes : List Nat)
    (hlen : v.length = 4)
    (_hvar : v.map Char.toLower = ".wav".toList ∨ v.map Char.toLower = ".mp3".toList)
    (hne1 : v ≠ ".wav".toList) (hne2 : v ≠ ".mp3".toList)
    (hsuf : v <:+ file) :
    validate_and_reformat_audio_file env file = (.ok false, [], []) ∧
    applyFsActions env (validate_and_reformat_audio_file env file).2.1 bytes = bytes := by
  have h1 : pyEndsWith file ".wav".toList = false := by
    rw [Bool.eq_false_iff]
    intro htrue
    exact hne1 (suffix_eq_of_length_eq hsuf (List.isSuffixOf_iff_suffix.mp htrue)
      (by rw [hlen]; decide))
  have h2 : pyEndsWith file ".mp3".toList = false := by
    rw [Bool.eq_false_iff]
    intro htrue
    exact hne2 (suffix_eq_of_length_eq hsuf (List.isSuffixOf_iff_suffix.mp htrue)
      (by rw [hlen]; decide))
  have h := validator_no_match env file h1 h2
  refine ⟨h, ?_⟩
  rw [h]
  rfl

theorem validator_extension_case_sensitive_witness :
    (".WAV".toList.length = 4) ∧
    (".WAV".toList.map Char.toLower = ".wav".toList) ∧
    (".WAV".toList ≠ ".wav".toList) ∧
    (".WAV".toList <:+ "SOUND.WAV".toList) ∧
    validate_and_reformat_audio_file idleAudioEnv "SOUND.WAV".toList = (.ok false, [], []) :=
  ⟨by decide, by decide, by decide, ⟨"SOUND".toList, by decide⟩,
    (validator_extension_case_sensitive idleAudioEnv "SOUND.WAV".toList ".WAV".toList []
      (by decide) (Or.inl (by decide)) (by decide) (by decide)
      ⟨"SOUND".toList, by decide⟩).1⟩

/-! ## Pipeline (`process_audio`, `process_audio_file`, `run`, main.py lines 341-462)

Each collaborator call is an oracle from a `PipelineEnv`; the pipeline is
the straight-line code of `process_audio_file`, which also records the
ordered trace of observable events: stage invocations, prints, log lines
and file deletions.  An exception anywhere aborts the remaining steps and
propagates, exactly as in the Python source. -/

/-- Observable events of a pipeline run, in program order. -/
inductive Event where
  | validate (file : List Char)
  | transcribe (file : List Char)
  | generate
  | synthesize
  | save (file : List Char)
  | play (file : List Char)
  | delete (file : List Char)
  | printed (msg : String)
  | logged (entry : LogEntry)
deriving DecidableEq

/-- Oracle behaviors of the collaborators invoked by the pipeline. -/
structure PipelineEnv where
  validate : List Char → Outcome Bool
  transcribe : List Char → Outcome String
  gptReply : String → Outcome String
  tts : String → Outcome Unit
  ttsSave : List Char → Outcome Unit
  play : List Char → Outcome Unit
  unlink : List Char → Outcome Unit

/-- The fixed synthesized-output path (main.py line 361). -/
def output_audio_file : List Char := "output_audio.wav".toList

/-- `process_audio` (main.py lines 341-364): transcribe, generate the GPT
reply, synthesize it, save to the fixed output path, return that path. -/
def process_audio (env : PipelineEnv) (audio_file : List Char) :
    Outcome (List Char) × List Event :=
  match env.transcribe audio_file with
  | .raises e => (.raises e, [.transcribe audio_file])
  | .ok text =>
    match env.gptReply text with
    | .raises e => (.raises e, [.transcribe audio_file, .generate])
    | .ok reply =>
      match env.tts reply with
      | .raises e => (.raises e, [.transcribe audio_file, .generate, .synthesize])
      | .ok _ =>
        match env.ttsSave output_audio_file with
        | .raises e =>
            (.raises e,
              [.transcribe audio_file, .generate, .synthesize, .save output_audio_file])
        | .ok _ =>
            (.ok output_audio_file,
              [.transcribe audio_file, .generate, .synthesize, .save output_audio_file])

/-- The rejection message printed and logged for an unsupported format
(main.py lines 405-408). -/
def unsupported_format_message : String :=
  "Error: Unsupported audio file format. Please provide a WAV or MP3 audio file."

def playing_message : String := "Playing the resulting audio..."

def response_message (response : String) : String :=
  "The obtained response is \"" ++ response ++ "\"."

def completed_message : String := "The task is completed."

/-- `process_audio_file` (main.py lines 394-426): validate; on `False`
print and log the rejection and return normally; otherwise run
`process_audio`, play the output, re-transcribe it for logging, delete the
output file, and print completion.  Any raised exception skips all later
steps. -/
def process_audio_file (env : PipelineEnv) (input_audio_file : List Char) :
    Outcome Unit × List Event :=
  match env.validate input_audio_file with
  | .raises e => (.raises e, [.validate input_audio_file])
  | .ok false =>
      (.ok (),
        [.validate input_audio_file,
         .printed unsupported_format_message,
         .logged ⟨.error, unsupported_format_message⟩])
  | .ok true =>
    match process_audio env input_audio_file with
    | (.raises e, tr) => (.raises e, .validate input_audio_file :: tr)
    | (.ok out, tr) =>
      match env.play out with
      | .raises e =>
          (.raises e, .validate input_audio_file :: tr ++
            [.logged ⟨.info, playing_message⟩, .play out])
      | .ok _ =>
        match env.transcribe out with
        | .raises e =>
            (.raises e, .validate input_audio_file :: tr ++
              [.logged ⟨.info, playing_message⟩, .play out, .transcribe out])
        | .ok response =>
          match env.unlink out with
          | .raises e =>
              (.raises e, .validate input_audio_file :: tr ++
                [.logged ⟨.info, playing_message⟩, .play out, .transcribe out,
                 .logged ⟨.info, response_message response⟩, .delete out])
          | .ok _ =>
              (.ok (), .validate input_audio_file :: tr ++
                [.logged ⟨.info, playing_message⟩, .play out, .transcribe out,
                 .logged ⟨.info, response_message response⟩, .delete out,
                 .printed completed_message])

/-- The tail of `run` (main.py lines 460-462): run the pipeline on the
copied file, then delete the input file; a pipeline exception propagates
and skips the input deletion. -/
def run_after_copy (env : PipelineEnv) (filename : List Char) : Outcome Unit × List Event :=
  match process_audio_file env filename with
  | (.ok _, tr) => (.ok (), tr ++ [.delete filename])
  | (.raises e, tr) => (.raises e, tr)

/-- All six stages of a run succeed: validation accepts, and transcription,
generation, synthesis, save, playback and verification all return
normally. -/
def allStagesOk (env : PipelineEnv) (input : List Char) : Prop :=
  env.validate input = .ok true ∧
  ∃ text reply response,
    env.transcribe input = .ok text ∧
    env.gptReply text = .ok reply ∧
    env.tts reply = .ok () ∧
    env.ttsSave output_audio_file = .ok () ∧
    env.play output_audio_file = .ok () ∧
    env.transcribe output_audio_file = .ok response

/-- C6: the synthesized output at the fixed path is deleted exactly when
every prior stage (validate, transcribe, generate, synthesize, play,
verify) succeeded; if any stage raises mid-run, the cleanup step is
skipped and no deletion of the output file occurs. -/
theorem cleanup_iff_all_stages (env : PipelineEnv) (input : List Char) :
    Event.delete output_audio_file ∈ (process_audio_file env input).2 ↔
      allStagesOk env input := by
  constructor
  · intro hmem
    simp only [process_audio_file] at hmem
    cases hv : env.validate input with
    | raises e => simp only [hv] at hmem; simp at hmem
    | ok b =>
      cases b with
      | false => simp only [hv] at hmem; simp at hmem
      | true =>
        simp only [hv] at hmem
        simp only [process_audio] at hmem
        cases ht : env.transcribe input with
        | raises e => simp only [ht] at hmem; simp at hmem
        | ok text =>
          simp only [ht] at hmem
          cases hg : env.gptReply text with
          | raises e => simp only [hg] at hmem; simp at hmem
          | ok reply =>
            simp only [hg] at hmem
            cases htts : env.tts reply with
            | raises e => simp only [htts] at hmem; simp at hmem
            | ok u =>
              cases u
              simp only [htts] at hmem
              cases hsave : env.ttsSave output_audio_file with
              | raises e => simp only [hsave] at hmem; simp at hmem
              | ok u =>
                cases u
                simp only [hsave] at hmem
                cases hplay : env.play output_audio_file with
                | raises e => simp only [hplay] at hmem; simp at hmem
                | ok u =>
                  cases u
                  simp only [hplay] at hmem
                  cases ht2 : env.transcribe output_audio_file with
                  | raises e => simp only [ht2] at hmem; simp at hmem
                  | ok response =>
                    exact ⟨hv, text, reply, response, ht, hg, htts, hsave, hplay, ht2⟩
  · rintro ⟨hv, text, reply, response, ht, hg, htts, hsave, hplay, ht2⟩
    cases hu : env.unlink output_audio_file with
    | raises e =>
      simp [process_audio_file, process_audio, hv, ht, hg, htts, hsave, hplay, ht2, hu]
    | ok u =>
      simp [process_audio_file, process_audio, hv, ht, hg, htts, hsave, hplay, ht2, hu]

/-- Oracles for a fully successful run. -/
def happyEnv : PipelineEnv :=
  { validate := fun _ => .ok true
    transcribe := fun _ => .ok "hello"
    gptReply := fun _ => .ok "Hi. How are you"
    tts := fun _ => .ok ()
    ttsSave := fun _ => .ok ()
    play := fun _ => .ok ()
    unlink := fun _ => .ok () }

theorem cleanup_iff_all_stages_witness :
    Event.delete output_audio_file ∈ (process_audio_file happyEnv "hello.wav".toList).2 :=
  (cleanup_iff_all_stages happyEnv "hello.wav".toList).mpr
    ⟨rfl, "hello", "Hi. How are you", "hello", rfl, rfl, rfl, rfl, rfl, rfl⟩

/-- C7: when validation returns `false`, the pipeline prints and logs the
unsupported-format rejection and returns normally, and no transcription,
generation, synthesis or playback event appears in the trace. -/
theorem rejected_format_aborts (env : PipelineEnv) (input : List Char)
    (h : env.validate input = .ok false) :
    process_audio_file env input =
      (.ok (), [.validate input, .printed unsupported_format_message,
                .logged ⟨.error, unsupported_format_message⟩]) ∧
    (∀ f, Event.transcribe f ∉ (process_audio_file env input).2) ∧
    Event.generate ∉ (process_audio_file env input).2 ∧
    Event.synthesize ∉ (process_audio_file env input).2 ∧
    (∀ f, Event.play f ∉ (process_audio_file env input).2) := by
  have heq : process_audio_file env input =
      (.ok (), [.validate input, .printed unsupported_format_message,
                .logged ⟨.error, unsupported_format_message⟩]) := by
    simp only [process_audio_file, h]
  refine ⟨heq, ?_, ?_, ?_, ?_⟩ <;> rw [heq] <;> simp

/-- Oracles where validation rejects the input. -/
def rejectEnv : PipelineEnv :=
  { validate := fun _ => .ok false
    transcribe := fun _ => .ok ""
    gptReply := fun _ => .ok ""
    tts := fun _ => .ok ()
    ttsSave := fun _ => .ok ()
    play := fun _ => .ok ()
    unlink := fun _ => .ok () }

theorem rejected_format_aborts_witness :
    (rejectEnv.validate "notes.txt".toList = .ok false) ∧
    process_audio_file rejectEnv "notes.txt".toList =
      (.ok (), [.validate "notes.txt".toList, .printed unsupported_format_message,
                .logged ⟨.error, unsupported_format_message⟩]) ∧
    Event.transcribe "notes.txt".toList ∉
      (process_audio_file rejectEnv "notes.txt".toList).2 ∧
    Event.generate ∉ (process_audio_file rejectEnv "notes.txt".toList).2 :=
  ⟨rfl, (rejected_format_aborts rejectEnv "notes.txt".toList rfl).1,
    (rejected_format_aborts rejectEnv "notes.txt".toList rfl).2.1 "notes.txt".toList,
    (rejected_format_aborts rejectEnv "notes.txt".toList rfl).2.2.1⟩

/-- Recognizer for deletion events. -/
def isDeleteEvent : Event → Bool
  | .delete _ => true
  | _ => false

/-- C9: the pipeline performs at most one deletion per run and every
deletion it performs targets the fixed output path `"output_audio.wav"`;
in particular it never deletes an input file at a different path.  The
input file is deleted only by the outer caller `run`, strictly after the
whole pipeline invocation has completed (its deletion is appended after
the entire pipeline trace, and only when the pipeline returned
normally). -/
theorem pipeline_delete_discipline (env : PipelineEnv) (input : List Char) :
    ((process_audio_file env input).2.countP isDeleteEvent ≤ 1) ∧
    (∀ p, Event.delete p ∈ (process_audio_file env input).2 → p = output_audio_file) ∧
    (input ≠ output_audio_file → Event.delete input ∉ (process_audio_file env input).2) ∧
    (∀ v, (process_audio_file env input).1 = .ok v →
      (run_after_copy env input).2 = (process_audio_file env input).2 ++ [.delete input]) := by
  have main : ((process_audio_file env input).2.countP isDeleteEvent ≤ 1) ∧
      (∀ p, Event.delete p ∈ (process_audio_file env input).2 → p = output_audio_file) := by
    cases hv : env.validate input with
    | raises e =>
      have htr : process_audio_file env input = (.raises e, [.validate input]) := by
        simp [process_audio_file, hv]
      rw [htr]
      constructor
      · simp [List.countP_cons, isDeleteEvent]
      · intro p hp
        simp at hp
    | ok b =>
      cases b with
      | false =>
        have htr : process_audio_file env input =
            (.ok (), [.validate input, .printed unsupported_format_message,
                      .logged ⟨.error, unsupported_format_message⟩]) := by
          simp [process_audio_file, hv]
        rw [htr]
        constructor
        · simp [List.countP_cons, isDeleteEvent]
        · intro p hp
          simp at hp
      | true =>
        cases ht : env.transcribe input with
        | raises e =>
          have htr : process_audio_file env input =
              (.raises e, [.validate input, .transcribe input]) := by
            simp [process_audio_file, process_audio, hv, ht]
          rw [htr]
          constructor
          · simp [List.countP_cons, isDeleteEvent]
          · intro p hp
            simp at hp
        | ok text =>
          cases hg : env.gptReply text with
          | raises e =>
            have htr : process_audio_file env input =
                (.raises e, [.validate input, .transcribe input, .generate]) := by
              simp [process_audio_file, process_audio, hv, ht, hg]
            rw [htr]
            constructor
            · simp [List.countP_cons, isDeleteEvent]
            · intro p hp
              simp at hp
          | ok reply =>
            cases htts : env.tts reply with
            | raises e =>
              have htr : process_audio_file env input =
                  (.raises e, [.validate input, .transcribe input, .generate, .synthesize]) := by
                simp [process_audio_file, process_audio, hv, ht, hg, htts]
              rw [htr]
              constructor
              · simp [List.countP_cons, isDeleteEvent]
              · intro p hp
                simp at hp
            | ok u =>
              cases hsave : env.ttsSave output_audio_file with
              | raises e =>
                have htr : process_audio_file env input =
                    (.raises e, [.validate input, .transcribe input, .generate, .synthesize,
                                 .save output_audio_file]) := by
                  simp [process_audio_file, process_audio, hv, ht, hg, htts, hsave]
                rw [htr]
                constructor
                · simp [List.countP_cons, isDeleteEvent]
                · intro p hp
                  simp at hp
              | ok u2 =>
                cases hplay : env.play output_audio_file with
                | raises e =>
                  have htr : process_audio_file env input =
                      (.raises e, [.validate input, .transcribe input, .generate, .synthesize,
                                   .save output_audio_file, .logged ⟨.info, playing_message⟩,
                                   .play output_audio_file]) := by
                    simp [process_audio_file, process_audio, hv, ht, hg, htts, hsave, hplay]
                  rw [htr]
                  constructor
                  · simp [List.countP_cons, isDeleteEvent]
                  · intro p hp
                    simp at hp
                | ok u3 =>
                  cases ht2 : env.transcribe output_audio_file with
                  | raises e =>
                    have htr : process_audio_file env input =
                        (.raises e, [.validate input, .transcribe input, .generate, .synthesize,
                                     .save output_audio_file, .logged ⟨.info, playing_message⟩,
                                     .play output_audio_file, .transcribe output_audio_file]) := by
                      simp [process_audio_file, process_audio, hv, ht, hg, htts, hsave, hplay, ht2]
                    rw [htr]
                    constructor
                    · simp [List.countP_cons, isDeleteEvent]
                    · intro p hp
                      simp at hp
                  | ok response =>
                    cases hu : env.unlink output_audio_file with
                    | raises e =>
                      have htr : process_audio_file env input =
                          (.raises e, [.validate input, .transcribe input, .generate, .synthesize,
                                       .save output_audio_file, .logged ⟨.info, playing_message⟩,
                                       .play output_audio_file, .transcribe output_audio_file,
                                       .logged ⟨.info, response_message response⟩,
                                       .delete output_audio_file]) := by
                        simp [process_audio_file, process_audio, hv, ht, hg, htts, hsave, hplay,
                          ht2, hu]
                      rw [htr]
                      constructor
                      · simp [List.countP_cons, isDeleteEvent]
                      · intro p hp
                        simp at hp
                        exact hp
                    | ok u4 =>
                      have htr : process_audio_file env input =
                          (.ok (), [.validate input, .transcribe input, .generate, .synthesize,
                                    .save output_audio_file, .logged ⟨.info, playing_message⟩,
                                    .play output_audio_file, .transcribe output_audio_file,
                                    .logged ⟨.info, response_message response⟩,
                                    .delete output_audio_file, .printed completed_message]) := by
                        simp [process_audio_file, process_audio, hv, ht, hg, htts, hsave, hplay,
                          ht2, hu]
                      rw [htr]
                      constructor
                      · simp [List.countP_cons, isDeleteEvent]
                      · intro p hp
                        simp at hp
                        exact hp
  refine ⟨main.1, main.2, ?_, ?_⟩
  · intro hne hmem
    exact hne (main.2 input hmem)
  · intro v hv
    unfold run_after_copy
    rw [show process_audio_file env input =
        ((process_audio_file env input).1, (process_audio_file env input).2) from rfl, hv]

theorem pipeline_delete_discipline_witness :
    ((process_audio_file happyEnv "hello.wav".toList).2.countP isDeleteEvent ≤ 1) ∧
    Event.delete "hello.wav".toList ∉ (process_audio_file happyEnv "hello.wav".toList).2 ∧
    (run_after_copy happyEnv "hello.wav".toList).2 =
      (process_audio_file happyEnv "hello.wav".toList).2 ++ [.delete "hello.wav".toList] :=
  ⟨(pipeline_delete_discipline happyEnv "hello.wav".toList).1,
    (pipeline_delete_discipline happyEnv "hello.wav".toList).2.2.1 (by decide),
    (pipeline_delete_discipline happyEnv "hello.wav".toList).2.2.2 () rfl⟩
